import Mathlib

/-!
Verification of the organization-lifecycle core of a multi-tenant backend.

The development shallowly embeds the Python services
(`database_service.py`, `admin_service.py`, `organization_service.py`,
`admin_routes.py`) as pure Lean functions over an explicit database state.
External collaborators (MongoDB, bcrypt, JWT) are modelled as opaque
capabilities over that state, with a `Faults` record injecting the
collaborator failures the compensation logic reacts to.
-/

namespace TWC

/-! ## NameCodec: `DatabaseService.sanitize_org_name` / `generate_collection_name` -/

/-- Character class `[a-z0-9_]` of the sanitizing regex, by code point:
`a`-`z` are 97..122, `0`-`9` are 48..57, `_` is 95. -/
def allowedChar (c : Char) : Bool :=
  (97 ≤ c.toNat && c.toNat ≤ 122) || (48 ≤ c.toNat && c.toNat ≤ 57) || c.toNat == 95

/-- `.replace(" ", "_").replace("-", "_")`, pointwise on characters. -/
def replaceSpaceHyphen (c : Char) : Char :=
  if c == ' ' || c == '-' then '_' else c

/-- `re.sub(r"_+", "_", s)`: collapse each run of underscores to one. -/
def collapseUnderscores : List Char → List Char
  | [] => []
  | [c] => [c]
  | c :: d :: rest =>
      if c = '_' ∧ d = '_' then collapseUnderscores (d :: rest)
      else c :: collapseUnderscores (d :: rest)

/-- The character dropped by `.strip("_")`. -/
def isUnderscore (c : Char) : Bool := c = '_'

/-- `.strip("_")`: drop leading and trailing underscores. -/
def stripUnderscores (l : List Char) : List Char :=
  ((l.dropWhile isUnderscore).reverse.dropWhile isUnderscore).reverse

/-- The sanitizing pipeline of `DatabaseService.sanitize_org_name`,
on character lists: lowercase, replace space/hyphen by underscore,
strip characters outside `[a-z0-9_]`, collapse underscore runs, trim. -/
def sanitizeList (l : List Char) : List Char :=
  stripUnderscores (collapseUnderscores
    (((l.map Char.toLower).map replaceSpaceHyphen).filter allowedChar))

/-- `DatabaseService.sanitize_org_name`. -/
def sanitize_org_name (name : String) : String :=
  ⟨sanitizeList name.data⟩

/-- `DatabaseService.generate_collection_name`. -/
def generate_collection_name (org_name : String) : String :=
  "org_" ++ sanitize_org_name org_name

/-! ### Canonical form of sanitized names -/

/-- No two adjacent underscores. -/
def NoDouble (l : List Char) : Prop :=
  List.Chain' (fun a b => ¬(a = '_' ∧ b = '_')) l

theorem noDouble_reverse {l : List Char} : NoDouble l.reverse ↔ NoDouble l := by
  unfold NoDouble
  rw [List.chain'_reverse]
  constructor <;> exact List.Chain'.imp (fun a b h hab => h ⟨hab.2, hab.1⟩)

theorem collapse_cons_cons (c d : Char) (rest : List Char) :
    collapseUnderscores (c :: d :: rest) =
      if c = '_' ∧ d = '_' then collapseUnderscores (d :: rest)
      else c :: collapseUnderscores (d :: rest) := rfl

theorem collapse_cons_head (c : Char) (l : List Char) :
    (collapseUnderscores (c :: l)).head? = some c := by
  induction l generalizing c with
  | nil => rfl
  | cons d rest ih =>
      rw [collapse_cons_cons]
      by_cases h : c = '_' ∧ d = '_'
      · rw [if_pos h, h.1, ← h.2]
        exact ih d
      · rw [if_neg h]
        rfl

theorem collapse_mem {c : Char} {l : List Char} (h : c ∈ collapseUnderscores l) : c ∈ l := by
  induction l using collapseUnderscores.induct with
  | case1 => exact h
  | case2 a => exact h
  | case3 a d rest hud ih =>
      rw [collapse_cons_cons, if_pos hud] at h
      exact List.mem_cons_of_mem a (ih h)
  | case4 a d rest hud ih =>
      rw [collapse_cons_cons, if_neg hud] at h
      rcases List.mem_cons.mp h with h | h
      · exact h ▸ List.mem_cons_self a _
      · exact List.mem_cons_of_mem a (ih h)

theorem collapse_noDouble (l : List Char) : NoDouble (collapseUnderscores l) := by
  induction l using collapseUnderscores.induct with
  | case1 => exact List.chain'_nil
  | case2 a => exact List.chain'_singleton a
  | case3 a d rest hud ih =>
      rw [collapse_cons_cons, if_pos hud]
      exact ih
  | case4 a d rest hud ih =>
      rw [collapse_cons_cons, if_neg hud]
      rw [NoDouble, List.chain'_cons']
      refine ⟨?_, ih⟩
      intro y hy
      rw [collapse_cons_head d rest] at hy
      cases hy
      exact hud

theorem collapse_fix {l : List Char} (h : NoDouble l) : collapseUnderscores l = l := by
  induction l using collapseUnderscores.induct with
  | case1 => rfl
  | case2 a => rfl
  | case3 a d rest hud ih =>
      exact absurd hud (List.chain'_cons.mp h).1
  | case4 a d rest hud ih =>
      rw [collapse_cons_cons, if_neg hud, ih (List.chain'_cons.mp h).2]

theorem head?_dropWhile_false {p : Char → Bool} {l : List Char} {c : Char}
    (h : (l.dropWhile p).head? = some c) : p c = false := by
  induction l with
  | nil => simp at h
  | cons a rest ih =>
      rw [List.dropWhile_cons] at h
      by_cases ha : p a
      · rw [if_pos ha] at h
        exact ih h
      · rw [if_neg ha] at h
        cases h
        exact Bool.eq_false_iff.mpr ha

theorem strip_mem {c : Char} {l : List Char} (h : c ∈ stripUnderscores l) : c ∈ l := by
  unfold stripUnderscores at h
  rw [List.mem_reverse] at h
  have h1 := (List.dropWhile_suffix isUnderscore).subset h
  rw [List.mem_reverse] at h1
  exact (List.dropWhile_suffix isUnderscore).subset h1

theorem strip_noDouble {l : List Char} (h : NoDouble l) : NoDouble (stripUnderscores l) := by
  have h1 : NoDouble (l.dropWhile isUnderscore) :=
    List.Chain'.suffix h (List.dropWhile_suffix isUnderscore)
  have h2 : NoDouble (l.dropWhile isUnderscore).reverse := noDouble_reverse.mpr h1
  have h3 : NoDouble ((l.dropWhile isUnderscore).reverse.dropWhile isUnderscore) :=
    List.Chain'.suffix h2 (List.dropWhile_suffix isUnderscore)
  exact noDouble_reverse.mpr h3

theorem strip_getLast? (l : List Char) : (stripUnderscores l).getLast? ≠ some '_' := by
  unfold stripUnderscores
  rw [List.getLast?_reverse]
  intro h
  have := head?_dropWhile_false h
  simp [isUnderscore] at this

theorem strip_head? (l : List Char) : (stripUnderscores l).head? ≠ some '_' := by
  unfold stripUnderscores
  rw [List.head?_reverse]
  set m := (l.dropWhile isUnderscore).reverse with hm
  intro h
  obtain ⟨s, hs⟩ := List.dropWhile_suffix (l := m) isUnderscore
  have hlast : m.getLast? = some '_' := by
    rw [← hs, List.getLast?_append, h]
    rfl
  rw [hm, List.getLast?_reverse] at hlast
  have := head?_dropWhile_false hlast
  simp [isUnderscore] at this

theorem dropWhile_underscore_fix {l : List Char} (h : l.head? ≠ some '_') :
    l.dropWhile isUnderscore = l := by
  cases l with
  | nil => rfl
  | cons a rest =>
      rw [List.dropWhile_cons, if_neg]
      intro ha
      apply h
      rw [show a = '_' by simpa [isUnderscore] using ha]
      rfl

theorem strip_fix {l : List Char} (h1 : l.head? ≠ some '_') (h2 : l.getLast? ≠ some '_') :
    stripUnderscores l = l := by
  unfold stripUnderscores
  rw [dropWhile_underscore_fix h1, dropWhile_underscore_fix, List.reverse_reverse]
  rw [List.head?_reverse]
  exact h2

theorem toLower_fix {c : Char} (h : allowedChar c = true) : c.toLower = c := by
  simp only [allowedChar, Bool.or_eq_true, Bool.and_eq_true, decide_eq_true_eq,
    beq_iff_eq] at h
  unfold Char.toLower
  rw [if_neg]
  omega

theorem replace_fix {c : Char} (h : allowedChar c = true) : replaceSpaceHyphen c = c := by
  unfold replaceSpaceHyphen
  rw [if_neg]
  intro hc
  rcases Bool.or_eq_true _ _ |>.mp hc with h1 | h1 <;>
    rw [show c = _ from beq_iff_eq.mp h1] at h <;> exact absurd h (by decide)

theorem map_fix {f : Char → Char} {l : List Char} (h : ∀ c ∈ l, f c = c) : l.map f = l := by
  induction l with
  | nil => rfl
  | cons a rest ih =>
      simp only [List.map_cons]
      rw [h a (List.mem_cons_self a rest), ih (fun c hc => h c (List.mem_cons_of_mem a hc))]

theorem sanitize_allowed {c : Char} {l : List Char} (h : c ∈ sanitizeList l) :
    allowedChar c = true := by
  unfold sanitizeList at h
  exact List.of_mem_filter (collapse_mem (strip_mem h))

theorem sanitize_noDouble (l : List Char) : NoDouble (sanitizeList l) :=
  strip_noDouble (collapse_noDouble _)

theorem sanitize_head? (l : List Char) : (sanitizeList l).head? ≠ some '_' :=
  strip_head? _

theorem sanitize_getLast? (l : List Char) : (sanitizeList l).getLast? ≠ some '_' :=
  strip_getLast? _

/-- The sanitizing pipeline fixes any list already in canonical form. -/
theorem sanitize_fix {l : List Char} (hall : ∀ c ∈ l, allowedChar c = true)
    (hnd : NoDouble l) (hh : l.head? ≠ some '_') (hl : l.getLast? ≠ some '_') :
    sanitizeList l = l := by
  unfold sanitizeList
  rw [map_fix (fun c hc => toLower_fix (hall c hc))]
  rw [map_fix (fun c hc => replace_fix (hall c hc))]
  rw [List.filter_eq_self.mpr hall]
  rw [collapse_fix hnd]
  exact strip_fix hh hl

theorem sanitize_idem_list (l : List Char) :
    sanitizeList (sanitizeList l) = sanitizeList l :=
  sanitize_fix (fun _ hc => sanitize_allowed hc) (sanitize_noDouble l)
    (sanitize_head? l) (sanitize_getLast? l)

/-- C4: `generate_collection_name` prefixes the tag `org_` onto the sanitized
name; the sanitized name uses only characters of the class `[a-z0-9_]`, has no
two adjacent underscores, and neither starts nor ends with an underscore; an
input sanitizing to the empty string yields exactly the tag; the spec's
worked examples evaluate as described. -/
theorem generate_collection_name_spec (s : String) :
    generate_collection_name s = "org_" ++ sanitize_org_name s
    ∧ (∀ c ∈ (sanitize_org_name s).data, allowedChar c = true)
    ∧ NoDouble (sanitize_org_name s).data
    ∧ (sanitize_org_name s).data.head? ≠ some '_'
    ∧ (sanitize_org_name s).data.getLast? ≠ some '_'
    ∧ (sanitize_org_name s = "" → generate_collection_name s = "org_")
    ∧ generate_collection_name "Testco" = "org_testco"
    ∧ generate_collection_name "My--Org  Name!" = "org_my_org_name" := by
  refine ⟨rfl, fun c hc => sanitize_allowed hc, sanitize_noDouble s.data,
    sanitize_head? s.data, sanitize_getLast? s.data, ?_, rfl, rfl⟩
  intro h
  rw [generate_collection_name, h]
  rfl

/-- Witness for C4 at a concrete input whose sanitized form is empty. -/
theorem generate_collection_name_spec_witness :
    generate_collection_name "- -" = "org_" :=
  (generate_collection_name_spec "- -").2.2.2.2.2.1 rfl

/-- C5: `generate_collection_name` is deterministic — equal inputs give equal
outputs — and the sanitization step is idempotent: re-applying
`sanitize_org_name` to its own output returns it unchanged. -/
theorem sanitize_deterministic_idempotent :
    (∀ a b : String, a = b → generate_collection_name a = generate_collection_name b)
    ∧ ∀ s : String, sanitize_org_name (sanitize_org_name s) = sanitize_org_name s := by
  refine ⟨fun a b hab => hab ▸ rfl, fun s => ?_⟩
  show (⟨sanitizeList (sanitizeList s.data)⟩ : String) = ⟨sanitizeList s.data⟩
  rw [sanitize_idem_list]

/-- Witness for C5 at concrete inputs. -/
theorem sanitize_deterministic_idempotent_witness :
    generate_collection_name "Acme" = generate_collection_name "Acme"
    ∧ sanitize_org_name (sanitize_org_name "A - b") = sanitize_org_name "A - b" :=
  ⟨sanitize_deterministic_idempotent.1 "Acme" "Acme" rfl,
   sanitize_deterministic_idempotent.2 "A - b"⟩

/-! ## Data model

Persistent state of the document store: the `organizations` master
collection, the `admin_users` collection, and the dynamically named tenant
collections (documents abstracted as opaque `Nat` payloads).  `nextId`
models Mongo's fresh-id generation for inserts; `log` records the mutating
store operations in execution order, so ordering claims are statable. -/

/-- A document of the `organizations` master collection
(`models/organization.py`); timestamps omitted. -/
structure Org where
  id : Nat
  organization_name : String
  collection_name : String
deriving Repr, DecidableEq

/-- A document of the `admin_users` collection (`models/admin.py`);
timestamps omitted. -/
structure Admin where
  id : Nat
  email : String
  password_hash : String
  organization_id : Nat
deriving Repr, DecidableEq

/-- A mutating store operation, recorded in execution order. -/
inductive Event where
  | createCollection (name : String)
  | dropCollection (name : String)
  | migrate (src dst : String)
  | insertOrg (id : Nat)
  | updateOrg (id : Nat)
  | deleteOrg (id : Nat)
  | insertAdmin (id : Nat)
  | updateAdmin (id : Nat)
  | deleteAdminsByOrg (orgId : Nat)
deriving Repr, DecidableEq

/-- The document store state. -/
structure DbState where
  organizations : List Org
  admins : List Admin
  collections : List (String × List Nat)
  nextId : Nat
  log : List Event
deriving Repr, DecidableEq

/-- Injected collaborator failures: which store calls raise an unexpected
exception during the operation under analysis. -/
structure Faults where
  createCollectionFails : Bool
  dropCollectionFails : Bool
  insertAdminFails : Bool
  updateOrgFails : Bool
deriving Repr, DecidableEq

def noFaults : Faults := ⟨false, false, false, false⟩

/-- The error taxonomy surfaced by the services (each Python service raises
a bare `Exception` with a distinguishing message; the wrapper constructors
model the `Failed to create/update organization: ...` re-raises). -/
inductive Err where
  | duplicateOrganization
  | duplicateEmail
  | notFound
  | unauthorized
  | invalidCredentials
  | storageFailure
  | provisioningFailed (cause : Err)
  | updateFailed (cause : Err)
deriving Repr, DecidableEq

/-! ## DocumentStore primitives and `DatabaseService` -/

/-- `db.organizations.find_one({"organization_name": name})`. -/
def find_org_by_name (s : DbState) (name : String) : Option Org :=
  s.organizations.find? (fun o => o.organization_name == name)

/-- `db.organizations.insert_one(org_doc)`. -/
def insert_org (s : DbState) (name coll : String) : Org × DbState :=
  let o : Org := ⟨s.nextId, name, coll⟩
  (o, { s with organizations := s.organizations ++ [o], nextId := s.nextId + 1,
               log := s.log ++ [.insertOrg o.id] })

/-- `db.organizations.delete_one({"_id": id})`; ids are unique, so filtering
matches deleting the single matching document. -/
def delete_org_by_id (s : DbState) (id : Nat) : Nat × DbState :=
  let n := (s.organizations.filter (fun o => o.id == id)).length
  (n, { s with organizations := s.organizations.filter (fun o => o.id != id),
               log := s.log ++ [.deleteOrg id] })

/-- `db.organizations.update_one({"_id": id}, {"$set": ...})` as issued by
`update_organization`. -/
def update_org_record (f : Faults) (s : DbState) (id : Nat)
    (newName newColl : String) : Except Err DbState :=
  if f.updateOrgFails then .error .storageFailure
  else .ok { s with
    organizations := s.organizations.map (fun o =>
      if o.id == id then
        { o with organization_name := newName, collection_name := newColl }
      else o),
    log := s.log ++ [.updateOrg id] }

/-- `DatabaseService.collection_exists`. -/
def collection_exists (s : DbState) (name : String) : Bool :=
  s.collections.any (fun c => c.1 == name)

/-- `DatabaseService.create_dynamic_collection`: `db.create_collection`
raising `CollectionInvalid` on an existing name is caught and the existing
collection handle returned unchanged. -/
def create_dynamic_collection (f : Faults) (s : DbState) (name : String) :
    Except Err DbState :=
  if f.createCollectionFails then .error .storageFailure
  else if collection_exists s name then .ok s
  else .ok { s with collections := s.collections ++ [(name, [])],
                    log := s.log ++ [.createCollection name] }

/-- `DatabaseService.drop_collection`: never raises, reports success. -/
def drop_collection (f : Faults) (s : DbState) (name : String) : Bool × DbState :=
  if f.dropCollectionFails then (false, s)
  else (true, { s with collections := s.collections.filter (fun c => c.1 != name),
                       log := s.log ++ [.dropCollection name] })

/-- `DatabaseService.migrate_collection_data`: read all documents of the
source and insert them into the target; never raises, reports success. -/
def migrate_collection_data (s : DbState) (src dst : String) : Bool × DbState :=
  let docs := ((s.collections.find? (fun c => c.1 == src)).map Prod.snd).getD []
  (true, { s with
    collections := s.collections.map (fun c =>
      if c.1 == dst then (c.1, c.2 ++ docs) else c),
    log := s.log ++ [.migrate src dst] })

/-! ## `AuthService` capabilities and `AdminService` -/

/-- Opaque password hashing capability (bcrypt in the code); modelled as an
injective tagging so that `verify_password` succeeds exactly on the hashed
password. -/
def hash_password (p : String) : String := "hashed:" ++ p

/-- `AuthService.verify_password`. -/
def verify_password (p h : String) : Bool := ("hashed:" ++ p) == h

/-- `db.admin_users.find_one({"email": email})`. -/
def find_admin_by_email (s : DbState) (email : String) : Option Admin :=
  s.admins.find? (fun a => a.email == email)

/-- `db.admin_users.find_one({"_id": id})`. -/
def find_admin_by_id (s : DbState) (id : Nat) : Option Admin :=
  s.admins.find? (fun a => a.id == id)

/-- `db.admin_users.find_one({"organization_id": orgId})`
(`AdminService.get_admin_by_organization`). -/
def find_admin_by_org (s : DbState) (orgId : Nat) : Option Admin :=
  s.admins.find? (fun a => a.organization_id == orgId)

/-- `AdminService.create_admin`: duplicate-email check, hash, insert. -/
def create_admin (f : Faults) (s : DbState) (email password : String)
    (orgId : Nat) : Except Err (Admin × DbState) :=
  if (find_admin_by_email s email).isSome then .error .duplicateEmail
  else if f.insertAdminFails then .error .storageFailure
  else
    let a : Admin := ⟨s.nextId, email, hash_password password, orgId⟩
    .ok (a, { s with admins := s.admins ++ [a], nextId := s.nextId + 1,
                     log := s.log ++ [.insertAdmin a.id] })

/-- `AdminService.authenticate_admin`. -/
def authenticate_admin (s : DbState) (email password : String) : Option Admin :=
  match find_admin_by_email s email with
  | none => none
  | some a => if verify_password password a.password_hash then some a else none

/-- The `$set` issued by `AdminService.update_admin_credentials` once its
checks pass; `modified` reports whether a matching document existed. -/
def applyAdminUpdate (s : DbState) (adminId : Nat)
    (email password : Option String) : Bool × DbState :=
  let modified := s.admins.any (fun a => a.id == adminId)
  let upd : Admin → Admin := fun a =>
    if a.id == adminId then
      { a with email := email.getD a.email,
               password_hash := (password.map hash_password).getD a.password_hash }
    else a
  (modified, { s with admins := s.admins.map upd,
                      log := s.log ++ [.updateAdmin adminId] })

/-- `AdminService.update_admin_credentials`: with neither field it is a
no-op reporting `False`; a new email held by a different admin raises. -/
def update_admin_credentials (s : DbState) (adminId : Nat)
    (email password : Option String) : Except Err (Bool × DbState) :=
  match email, password with
  | none, none => .ok (false, s)
  | some e, _ =>
      if s.admins.any (fun a => a.email == e && a.id != adminId) then
        .error .duplicateEmail
      else .ok (applyAdminUpdate s adminId email password)
  | none, some _ => .ok (applyAdminUpdate s adminId email password)

/-- `AdminService.delete_admins_by_organization`
(`db.admin_users.delete_many({"organization_id": orgId})`). -/
def delete_admins_by_organization (s : DbState) (orgId : Nat) : Nat × DbState :=
  let n := (s.admins.filter (fun a => a.organization_id == orgId)).length
  (n, { s with admins := s.admins.filter (fun a => a.organization_id != orgId),
               log := s.log ++ [.deleteAdminsByOrg orgId] })

/-! ## `OrganizationService` -/

/-- The enriched document `create_organization` returns: the inserted
organization together with the admin's id and email. -/
structure OrgWithAdmin where
  org : Org
  admin_id : Nat
  admin_email : String
deriving Repr, DecidableEq

/-- `OrganizationService.validate_organization_exists`. -/
def validate_organization_exists (s : DbState) (name : String) : Bool :=
  (find_org_by_name s name).isSome

/-- `OrganizationService.create_organization`. -/
def create_organization (f : Faults) (s : DbState)
    (organization_name admin_email admin_password : String) :
    Except Err OrgWithAdmin × DbState :=
  if validate_organization_exists s organization_name then
    (.error .duplicateOrganization, s)
  else
    let collection_name := generate_collection_name organization_name
    let os1 := insert_org s organization_name collection_name
    let o := os1.1
    let s1 := os1.2
    match create_dynamic_collection f s1 collection_name with
    | .error e =>
        let s2 := (delete_org_by_id s1 o.id).2
        let s3 := (drop_collection f s2 collection_name).2
        (.error (.provisioningFailed e), s3)
    | .ok s2 =>
        match create_admin f s2 admin_email admin_password o.id with
        | .error e =>
            let s3 := (delete_org_by_id s2 o.id).2
            let s4 := (drop_collection f s3 collection_name).2
            (.error (.provisioningFailed e), s4)
        | .ok (a, s3) => (.ok ⟨o, a.id, a.email⟩, s3)

/-- `OrganizationService.get_organization`: the organization document,
enriched with its admin when one exists. -/
def get_organization (s : DbState) (name : String) : Option (Org × Option Admin) :=
  (find_org_by_name s name).map (fun o => (o, find_admin_by_org s o.id))

/-- The credentials step of `update_organization` (step 7): only entered
when at least one of the new fields is supplied and the organization has an
admin. -/
def update_org_credentials_step (s : DbState) (orgId : Nat)
    (admin_email admin_password : Option String) : Except Err (Bool × DbState) :=
  if admin_email.isSome || admin_password.isSome then
    match find_admin_by_org s orgId with
    | some admin => update_admin_credentials s admin.id admin_email admin_password
    | none => .ok (false, s)
  else .ok (false, s)

/-- `OrganizationService.update_organization` (rename). -/
def update_organization (f : Faults) (s : DbState)
    (old_organization_name new_organization_name : String)
    (admin_email admin_password : Option String) :
    Except Err (Option (Org × Option Admin)) × DbState :=
  match find_org_by_name s old_organization_name with
  | none => (.error .notFound, s)
  | some org =>
      if old_organization_name != new_organization_name
          && validate_organization_exists s new_organization_name then
        (.error .duplicateOrganization, s)
      else
        let old_collection_name := org.collection_name
        let new_collection_name := generate_collection_name new_organization_name
        match create_dynamic_collection f s new_collection_name with
        | .error e =>
            let s2 := (drop_collection f s new_collection_name).2
            (.error (.updateFailed e), s2)
        | .ok s1 =>
            let s2 := if collection_exists s1 old_collection_name then
                        (migrate_collection_data s1 old_collection_name
                          new_collection_name).2
                      else s1
            match update_org_record f s2 org.id new_organization_name
                new_collection_name with
            | .error e =>
                let s3 := (drop_collection f s2 new_collection_name).2
                (.error (.updateFailed e), s3)
            | .ok s3 =>
                let s4 := (drop_collection f s3 old_collection_name).2
                match update_org_credentials_step s4 org.id admin_email
                    admin_password with
                | .error e =>
                    let s5 := (drop_collection f s4 new_collection_name).2
                    (.error (.updateFailed e), s5)
                | .ok (_, s5) =>
                    (.ok (get_organization s5 new_organization_name), s5)

/-- `OrganizationService.delete_organization`. -/
def delete_organization (f : Faults) (s : DbState) (organization_name : String)
    (admin_id : Nat) : Except Err Bool × DbState :=
  match find_org_by_name s organization_name with
  | none => (.error .notFound, s)
  | some org =>
      match find_admin_by_id s admin_id with
      | none => (.error .unauthorized, s)
      | some admin =>
          if admin.organization_id != org.id then (.error .unauthorized, s)
          else
            let s1 := (drop_collection f s org.collection_name).2
            let s2 := (delete_admins_by_organization s1 org.id).2
            let ns3 := delete_org_by_id s2 org.id
            (.ok (decide (0 < ns3.1)), ns3.2)

/-! ## `admin_routes.admin_login` -/

/-- The claims embedded in the issued token and echoed in the route's
`TokenResponse` (`admin_id`, `organization_id`, `email`). -/
structure TokenResponse where
  admin_id : Nat
  organization_id : Nat
  email : String
deriving Repr, DecidableEq

/-- `admin_routes.admin_login`: authenticate, then issue a token embedding
the admin's id, organization id and email. -/
def admin_login (s : DbState) (email password : String) :
    Except Err TokenResponse :=
  match authenticate_admin s email password with
  | none => .error .invalidCredentials
  | some a => .ok ⟨a.id, a.organization_id, a.email⟩

/-! ## State well-formedness and counting helpers -/

/-- Every stored id (and every organization id referenced by an admin) is
below the fresh-id counter: Mongo object ids are never reused. -/
def IdsFresh (s : DbState) : Prop :=
  (∀ o ∈ s.organizations, o.id < s.nextId)
  ∧ (∀ a ∈ s.admins, a.id < s.nextId)
  ∧ ∀ a ∈ s.admins, a.organization_id < s.nextId

/-- Number of organization records carrying a given name. -/
def countOrgsByName (s : DbState) (name : String) : Nat :=
  (s.organizations.filter (fun o => o.organization_name == name)).length

/-- Number of admin records owned by a given organization. -/
def countAdminsByOrg (s : DbState) (orgId : Nat) : Nat :=
  (s.admins.filter (fun a => a.organization_id == orgId)).length

/-- The derived-collection invariant of a single record. -/
def OrgInvariant (o : Org) : Prop :=
  o.collection_name = generate_collection_name o.organization_name

/-- The derived-collection invariant over the whole store. -/
def StateInvariant (s : DbState) : Prop := ∀ o ∈ s.organizations, OrgInvariant o

/-- A concrete populated store used to witness the lifecycle theorems:
two provisioned organizations, each with its admin and tenant collection. -/
def exampleState : DbState :=
  { organizations := [⟨0, "Acme", "org_acme"⟩, ⟨2, "Other", "org_other"⟩],
    admins := [⟨1, "a@x.com", hash_password "pw1", 0⟩,
               ⟨3, "b@x.com", hash_password "pw2", 2⟩],
    collections := [("org_acme", [10, 11]), ("org_other", [20])],
    nextId := 4,
    log := [] }

/-! ## Frame lemmas for the store primitives -/

theorem drop_collection_frame (f : Faults) (s : DbState) (n : String) :
    (drop_collection f s n).2.organizations = s.organizations
    ∧ (drop_collection f s n).2.admins = s.admins
    ∧ (drop_collection f s n).2.nextId = s.nextId := by
  unfold drop_collection
  split <;> exact ⟨rfl, rfl, rfl⟩

theorem migrate_frame (s : DbState) (src dst : String) :
    (migrate_collection_data s src dst).2.organizations = s.organizations
    ∧ (migrate_collection_data s src dst).2.admins = s.admins
    ∧ (migrate_collection_data s src dst).2.nextId = s.nextId :=
  ⟨rfl, rfl, rfl⟩

theorem create_dynamic_collection_frame {f : Faults} {s t : DbState} {n : String}
    (h : create_dynamic_collection f s n = .ok t) :
    t.organizations = s.organizations ∧ t.admins = s.admins ∧ t.nextId = s.nextId := by
  unfold create_dynamic_collection at h
  split at h
  · cases h
  · split at h <;> (cases h; exact ⟨rfl, rfl, rfl⟩)

theorem update_org_record_frame {f : Faults} {s t : DbState} {id : Nat}
    {nn nc : String} (h : update_org_record f s id nn nc = .ok t) :
    t.admins = s.admins ∧ t.collections = s.collections ∧ t.nextId = s.nextId
    ∧ t.organizations = s.organizations.map (fun o =>
        if o.id == id then
          { o with organization_name := nn, collection_name := nc }
        else o) := by
  unfold update_org_record at h
  split at h
  · cases h
  · cases h
    exact ⟨rfl, rfl, rfl, rfl⟩

theorem create_admin_frame {f : Faults} {s t : DbState} {e p : String}
    {oid : Nat} {a : Admin} (h : create_admin f s e p oid = .ok (a, t)) :
    t.organizations = s.organizations ∧ t.collections = s.collections := by
  unfold create_admin at h
  split at h
  · cases h
  · split at h
    · cases h
    · cases h
      exact ⟨rfl, rfl⟩

theorem update_admin_credentials_frame {s t : DbState} {id : Nat}
    {e p : Option String} {b : Bool}
    (h : update_admin_credentials s id e p = .ok (b, t)) :
    t.organizations = s.organizations ∧ t.collections = s.collections := by
  unfold update_admin_credentials at h
  split at h
  · cases h
    exact ⟨rfl, rfl⟩
  · rename_i e _
    split at h
    · cases h
    · cases h
      exact ⟨rfl, rfl⟩
  · cases h
    exact ⟨rfl, rfl⟩

theorem update_org_credentials_step_frame {s t : DbState} {oid : Nat}
    {e p : Option String} {b : Bool}
    (h : update_org_credentials_step s oid e p = .ok (b, t)) :
    t.organizations = s.organizations ∧ t.collections = s.collections := by
  unfold update_org_credentials_step at h
  split at h
  · split at h
    · exact update_admin_credentials_frame h
    · cases h
      exact ⟨rfl, rfl⟩
  · cases h
    exact ⟨rfl, rfl⟩

theorem filter_org_id_ne_of_lt {l : List Org} {n : Nat}
    (h : ∀ o ∈ l, o.id < n) : l.filter (fun o => o.id != n) = l :=
  List.filter_eq_self.mpr (fun o ho => by
    simpa [bne_iff_ne] using Nat.ne_of_lt (h o ho))

theorem any_filter_ne_false (cs : List (String × List Nat)) (n : String) :
    (cs.filter (fun c => c.1 != n)).any (fun c => c.1 == n) = false := by
  rw [List.any_eq_false]
  intro c hc
  have := List.of_mem_filter hc
  simp only [bne_iff_ne, ne_eq, decide_eq_true_eq] at this
  simpa using this

theorem admin_filter_count_zero (s : List Admin) (oid : Nat) :
    ((s.filter (fun a => a.organization_id != oid)).filter
      (fun a => a.organization_id == oid)).length = 0 := by
  rw [List.length_eq_zero, List.filter_eq_nil_iff]
  intro a ha
  have := List.of_mem_filter ha
  simp only [bne_iff_ne, ne_eq, decide_eq_true_eq] at this
  simpa using this

theorem insert_org_orgs (s : DbState) (n c : String) :
    (insert_org s n c).2.organizations = s.organizations ++ [⟨s.nextId, n, c⟩] := rfl

theorem insert_org_admins (s : DbState) (n c : String) :
    (insert_org s n c).2.admins = s.admins := rfl

theorem insert_org_id (s : DbState) (n c : String) :
    (insert_org s n c).1.id = s.nextId := rfl

theorem delete_org_by_id_orgs (s : DbState) (id : Nat) :
    (delete_org_by_id s id).2.organizations
      = s.organizations.filter (fun o => o.id != id) := rfl

theorem delete_org_by_id_admins (s : DbState) (id : Nat) :
    (delete_org_by_id s id).2.admins = s.admins := rfl

theorem drop_collection_orgs (f : Faults) (s : DbState) (n : String) :
    (drop_collection f s n).2.organizations = s.organizations := by
  unfold drop_collection
  split <;> rfl

theorem drop_collection_admins (f : Faults) (s : DbState) (n : String) :
    (drop_collection f s n).2.admins = s.admins := by
  unfold drop_collection
  split <;> rfl

theorem drop_collection_kills {f : Faults} (s : DbState) (n : String)
    (hd : f.dropCollectionFails = false) :
    collection_exists (drop_collection f s n).2 n = false := by
  unfold drop_collection collection_exists
  rw [hd]
  simp only [Bool.false_eq_true, if_false]
  exact any_filter_ne_false s.collections n

theorem find_org_by_name_congr {t u : DbState}
    (h : t.organizations = u.organizations) (n : String) :
    find_org_by_name t n = find_org_by_name u n := by
  unfold find_org_by_name
  rw [h]

theorem find_admin_by_email_congr {t u : DbState}
    (h : t.admins = u.admins) (e : String) :
    find_admin_by_email t e = find_admin_by_email u e := by
  unfold find_admin_by_email
  rw [h]

theorem countAdminsByOrg_congr {t u : DbState}
    (h : t.admins = u.admins) (n : Nat) :
    countAdminsByOrg t n = countAdminsByOrg u n := by
  unfold countAdminsByOrg
  rw [h]

theorem admin_filter_eq_count_zero {l : List Admin} {n : Nat}
    (h : ∀ a ∈ l, a.organization_id < n) :
    (l.filter (fun a => a.organization_id == n)).length = 0 := by
  rw [List.length_eq_zero, List.filter_eq_nil_iff]
  intro a ha
  simpa using Nat.ne_of_lt (h a ha)

theorem delete_admins_orgs (s : DbState) (oid : Nat) :
    (delete_admins_by_organization s oid).2.organizations = s.organizations := rfl

theorem delete_admins_admins (s : DbState) (oid : Nat) :
    (delete_admins_by_organization s oid).2.admins
      = s.admins.filter (fun a => a.organization_id != oid) := rfl

theorem delete_admins_collections (s : DbState) (oid : Nat) :
    (delete_admins_by_organization s oid).2.collections = s.collections := rfl

theorem delete_org_by_id_collections (s : DbState) (id : Nat) :
    (delete_org_by_id s id).2.collections = s.collections := rfl

theorem drop_collection_collections {f : Faults} (s : DbState) (n : String)
    (hd : f.dropCollectionFails = false) :
    (drop_collection f s n).2.collections
      = s.collections.filter (fun c => c.1 != n) := by
  unfold drop_collection
  rw [hd]
  rfl

theorem drop_collection_log {f : Faults} (s : DbState) (n : String)
    (hd : f.dropCollectionFails = false) :
    (drop_collection f s n).2.log = s.log ++ [.dropCollection n] := by
  unfold drop_collection
  rw [hd]
  rfl

theorem collection_exists_congr {t u : DbState}
    (h : t.collections = u.collections) (n : String) :
    collection_exists t n = collection_exists u n := by
  unfold collection_exists
  rw [h]

theorem unique_name_elim {s : DbState} {name : String} {org x : Org}
    (hcount : countOrgsByName s name = 1)
    (hfind : find_org_by_name s name = some org)
    (hx : x ∈ s.organizations) (hxn : x.organization_name = name) : x = org := by
  unfold countOrgsByName at hcount
  unfold find_org_by_name at hfind
  obtain ⟨y, hy⟩ := List.length_eq_one.mp hcount
  have hxy : x ∈ s.organizations.filter (fun o => o.organization_name == name) :=
    List.mem_filter.mpr ⟨hx, by simp [hxn]⟩
  have horg : org ∈ s.organizations.filter (fun o => o.organization_name == name) :=
    List.mem_filter.mpr ⟨List.mem_of_find?_eq_some hfind,
      List.find?_some (p := fun o : Org => o.organization_name == name) hfind⟩
  rw [hy] at hxy horg
  simp only [List.mem_singleton] at hxy horg
  rw [hxy, horg]

theorem validate_of_count {s : DbState} {name : String}
    (h : 1 ≤ countOrgsByName s name) : validate_organization_exists s name = true := by
  unfold countOrgsByName at h
  have hne : s.organizations.filter (fun o => o.organization_name == name) ≠ [] := by
    intro hnil
    rw [hnil] at h
    simp at h
  obtain ⟨o, ho⟩ := List.exists_mem_of_ne_nil _ hne
  unfold validate_organization_exists find_org_by_name
  rw [List.find?_isSome]
  refine ⟨o, List.mem_of_mem_filter ho, ?_⟩
  exact List.of_mem_filter (p := fun x : Org => x.organization_name == name) ho

/-! ## Claim theorems -/

/-- C6: creating an organization whose name is already taken fails with
`DuplicateOrganization` and performs no state change at all, so the number
of records carrying that name is preserved. -/
theorem create_duplicate_fails_fast (f : Faults) (s : DbState)
    (name email pw : String) (h : 1 ≤ countOrgsByName s name) :
    create_organization f s name email pw = (.error .duplicateOrganization, s)
    ∧ countOrgsByName (create_organization f s name email pw).2 name
        = countOrgsByName s name := by
  have heq : create_organization f s name email pw
      = (.error .duplicateOrganization, s) := by
    unfold create_organization
    rw [if_pos (validate_of_count h)]
  exact ⟨heq, by rw [heq]⟩

/-- Witness for C6: the second creation of `Acme` is rejected and the
single record persists. -/
theorem create_duplicate_fails_fast_witness :
    create_organization noFaults exampleState "Acme" "z@x.com" "pw"
      = (.error .duplicateOrganization, exampleState)
    ∧ countOrgsByName
        (create_organization noFaults exampleState "Acme" "z@x.com" "pw").2 "Acme" = 1 := by
  have h := create_duplicate_fails_fast noFaults exampleState "Acme" "z@x.com" "pw"
    (by decide)
  exact ⟨h.1, by rw [h.1]; rfl⟩

/-- C7: a delete request whose admin does not resolve, or resolves to an
admin of a different organization, fails with `Unauthorized` and leaves the
whole store state unchanged. -/
theorem delete_unauthorized_no_change (f : Faults) (s : DbState)
    (name : String) (adminId : Nat) (org : Org)
    (hfind : find_org_by_name s name = some org)
    (hauth : find_admin_by_id s adminId = none
             ∨ ∃ a, find_admin_by_id s adminId = some a ∧ a.organization_id ≠ org.id) :
    delete_organization f s name adminId = (.error .unauthorized, s) := by
  unfold delete_organization
  rcases hauth with h | ⟨a, ha, hne⟩
  · simp only [hfind, h]
  · simp only [hfind, ha]
    have : (a.organization_id != org.id) = true := by simpa [bne_iff_ne] using hne
    rw [if_pos this]

/-- Witness for C7: the admin of `Other` cannot delete `Acme`. -/
theorem delete_unauthorized_no_change_witness :
    delete_organization noFaults exampleState "Acme" 3
      = (.error .unauthorized, exampleState) :=
  delete_unauthorized_no_change noFaults exampleState "Acme" 3
    ⟨0, "Acme", "org_acme"⟩ rfl
    (Or.inr ⟨⟨3, "b@x.com", hash_password "pw2", 2⟩, rfl, by decide⟩)

/-- C9: login fails with `InvalidCredentials` when the email resolves to no
admin or the password does not verify; on success the token's embedded
claims (admin id, organization id, email) are exactly the authenticated
admin's record fields. -/
theorem login_spec (s : DbState) (email pw : String) :
    (find_admin_by_email s email = none →
       admin_login s email pw = .error .invalidCredentials)
    ∧ ∀ a, find_admin_by_email s email = some a →
        (verify_password pw a.password_hash = false →
           admin_login s email pw = .error .invalidCredentials)
        ∧ (verify_password pw a.password_hash = true →
           admin_login s email pw = .ok ⟨a.id, a.organization_id, a.email⟩) := by
  refine ⟨fun h => ?_, fun a ha => ⟨fun hv => ?_, fun hv => ?_⟩⟩ <;>
    unfold admin_login authenticate_admin
  · simp [h]
  · simp [ha, hv]
  · simp [ha, hv]

/-- Witness for C9: wrong password rejected, unknown email rejected,
correct credentials yield the admin's own claims. -/
theorem login_spec_witness :
    admin_login exampleState "a@x.com" "bad" = .error .invalidCredentials
    ∧ admin_login exampleState "a@x.com" "pw1" = .ok ⟨1, 0, "a@x.com"⟩
    ∧ admin_login exampleState "nobody@x.com" "pw" = .error .invalidCredentials := by
  refine ⟨?_, ?_, ?_⟩
  · exact ((login_spec exampleState "a@x.com" "bad").2
      ⟨1, "a@x.com", hash_password "pw1", 0⟩ rfl).1 rfl
  · exact ((login_spec exampleState "a@x.com" "pw1").2
      ⟨1, "a@x.com", hash_password "pw1", 0⟩ rfl).2 rfl
  · exact (login_spec exampleState "nobody@x.com" "pw").1 rfl

/-- C10: creating a dynamic collection whose name already exists does not
raise — the existing collection (documents included) is returned unchanged;
consequently `create_organization` succeeds on a colliding derived
collection id, reusing the pre-existing collection (here `ACME` derives the
collection id of the existing `Acme` tenant). -/
theorem create_collection_reuses_existing (f : Faults) (s : DbState) (name : String)
    (hex : collection_exists s name = true)
    (hf : f.createCollectionFails = false) :
    create_dynamic_collection f s name = .ok s
    ∧ (create_organization noFaults exampleState "ACME" "c@x.com" "pw").1
        = .ok ⟨⟨4, "ACME", "org_acme"⟩, 5, "c@x.com"⟩
    ∧ (create_organization noFaults exampleState "ACME" "c@x.com" "pw").2.collections
        = exampleState.collections := by
  refine ⟨?_, rfl, rfl⟩
  unfold create_dynamic_collection
  rw [hf]
  simp [hex]

/-- Witness for C10: the existing `org_acme` collection is reused as is. -/
theorem create_collection_reuses_existing_witness :
    create_dynamic_collection noFaults exampleState "org_acme" = .ok exampleState :=
  (create_collection_reuses_existing noFaults exampleState "org_acme" rfl rfl).1

/-- C1 (counterexample): the rename of `Acme` to `Acme Two` supplying the
other organization's admin email passes the initial existence and
duplicate-name checks and fails with `UpdateFailed` (duplicate email) in
the credentials step — yet the persisted organization record has already
been renamed and re-pointed to the new collection id, so it is not left
unmodified. -/
theorem rename_late_failure_modifies_record :
    (update_organization noFaults exampleState "Acme" "Acme Two"
        (some "b@x.com") none).1 = .error (.updateFailed .duplicateEmail)
    ∧ find_org_by_name exampleState "Acme" = some ⟨0, "Acme", "org_acme"⟩
    ∧ (update_organization noFaults exampleState "Acme" "Acme Two"
        (some "b@x.com") none).2.organizations.head?
        = some ⟨0, "Acme Two", "org_acme_two"⟩ :=
  ⟨rfl, rfl, rfl⟩

/-- C1 (amended): when the rename fails at the collection-creation step —
before the organization record has been updated — the only store action
performed is the single compensating drop of the new collection:
`UpdateFailed` is surfaced, organization and admin records are untouched,
and the store differs only in that the new collection name is absent. -/
theorem rename_early_failure_compensation (f : Faults) (s : DbState)
    (oldName newName : String) (ae ap : Option String) (org : Org)
    (hfind : find_org_by_name s oldName = some org)
    (hdup : (oldName != newName && validate_organization_exists s newName) = false)
    (hcc : f.createCollectionFails = true)
    (hdrop : f.dropCollectionFails = false) :
    (update_organization f s oldName newName ae ap).1
      = .error (.updateFailed .storageFailure)
    ∧ (update_organization f s oldName newName ae ap).2.organizations
        = s.organizations
    ∧ (update_organization f s oldName newName ae ap).2.admins = s.admins
    ∧ (update_organization f s oldName newName ae ap).2.log
        = s.log ++ [.dropCollection (generate_collection_name newName)]
    ∧ (update_organization f s oldName newName ae ap).2.collections
        = s.collections.filter (fun c => c.1 != generate_collection_name newName) := by
  have hccE : create_dynamic_collection f s (generate_collection_name newName)
      = .error .storageFailure := by
    unfold create_dynamic_collection
    rw [hcc]
    rfl
  have hd : drop_collection f s (generate_collection_name newName)
      = (true,
         { s with
             collections := s.collections.filter
               (fun c => c.1 != generate_collection_name newName),
             log := s.log
               ++ [.dropCollection (generate_collection_name newName)] }) := by
    unfold drop_collection
    rw [hdrop]
    rfl
  unfold update_organization
  simp only [hfind, hdup, Bool.false_eq_true, if_false, hccE, hd]
  exact ⟨trivial, trivial, trivial, trivial, trivial⟩

/-- Witness for C1's amended theorem: collection creation fails while
renaming `Acme`, and the store is left with the record untouched and only
the compensating drop performed. -/
theorem rename_early_failure_compensation_witness :
    (update_organization ⟨true, false, false, false⟩ exampleState
        "Acme" "Acme Two" none none).1 = .error (.updateFailed .storageFailure)
    ∧ (update_organization ⟨true, false, false, false⟩ exampleState
        "Acme" "Acme Two" none none).2.organizations = exampleState.organizations :=
  let h := rename_early_failure_compensation ⟨true, false, false, false⟩
    exampleState "Acme" "Acme Two" none none ⟨0, "Acme", "org_acme"⟩ rfl rfl rfl rfl
  ⟨h.1, h.2.1⟩

/-- C2: when creation passes the duplicate-name check but collection
creation or admin creation fails, the operation deletes the just-inserted
record, best-effort drops the just-created collection (a drop failure is
ignored: the error and the record rollback are unaffected), and surfaces a
`ProvisioningFailed` error wrapping the cause; afterwards no organization
record with that name and no admin record for the new organization id
exist. -/
theorem create_failure_rollback (f : Faults) (s : DbState)
    (name email pw : String)
    (hfresh : IdsFresh s)
    (hnone : find_org_by_name s name = none)
    (hfail : f.createCollectionFails = true
             ∨ (find_admin_by_email s email).isSome = true
             ∨ f.insertAdminFails = true) :
    (∃ e, (create_organization f s name email pw).1 = .error (.provisioningFailed e))
    ∧ (create_organization f s name email pw).2.organizations = s.organizations
    ∧ (create_organization f s name email pw).2.admins = s.admins
    ∧ find_org_by_name (create_organization f s name email pw).2 name = none
    ∧ countAdminsByOrg (create_organization f s name email pw).2 s.nextId = 0
    ∧ (f.dropCollectionFails = false →
        collection_exists (create_organization f s name email pw).2
          (generate_collection_name name) = false) := by
  have hv : validate_organization_exists s name = false := by
    unfold validate_organization_exists
    rw [hnone]
    rfl
  -- restoring the organization list after the rollback delete
  have hrestore : ∀ t : DbState, t.organizations = s.organizations ++ [⟨s.nextId, name, generate_collection_name name⟩] →
      (delete_org_by_id t s.nextId).2.organizations = s.organizations := by
    intro t ht
    rw [delete_org_by_id_orgs, ht, List.filter_append, filter_org_id_ne_of_lt hfresh.1]
    simp
  unfold create_organization
  simp only [hv, Bool.false_eq_true, if_false]
  cases hcc : f.createCollectionFails with
  | true =>
      have hE : ∀ t : DbState, create_dynamic_collection f t (generate_collection_name name)
          = .error .storageFailure := by
        intro t
        unfold create_dynamic_collection
        rw [hcc]
        rfl
      rw [hE]
      refine ⟨⟨.storageFailure, rfl⟩, ?_, ?_, ?_, ?_, ?_⟩
      · rw [drop_collection_orgs]
        exact hrestore _ rfl
      · rw [drop_collection_admins, delete_org_by_id_admins, insert_org_admins]
      · rw [find_org_by_name_congr (u := s) (by rw [drop_collection_orgs]; exact hrestore _ rfl)]
        exact hnone
      · rw [countAdminsByOrg_congr (u := s) (by rw [drop_collection_admins, delete_org_by_id_admins, insert_org_admins])]
        unfold countAdminsByOrg
        exact admin_filter_eq_count_zero hfresh.2.2
      · intro hd
        exact drop_collection_kills _ _ hd
  | false =>
      have hok : ∃ t : DbState, create_dynamic_collection f
          (insert_org s name (generate_collection_name name)).2
          (generate_collection_name name) = .ok t := by
        unfold create_dynamic_collection
        rw [hcc]
        simp only [Bool.false_eq_true, if_false]
        split
        · exact ⟨_, rfl⟩
        · exact ⟨_, rfl⟩
      obtain ⟨t, ht⟩ := hok
      have htframe := create_dynamic_collection_frame ht
      simp only [ht, insert_org_id]
      have hadmErr : ∃ e, create_admin f t email pw s.nextId = .error e := by
        unfold create_admin
        rcases hfail with hcc' | hdup | hins
        · rw [hcc'] at hcc
          cases hcc
        · rw [find_admin_by_email_congr (u := s) (by rw [htframe.2.1, insert_org_admins])]
          exact ⟨.duplicateEmail, by simp [hdup]⟩
        · by_cases hdup2 : (find_admin_by_email t email).isSome
          · exact ⟨.duplicateEmail, by simp [hdup2]⟩
          · exact ⟨.storageFailure, by simp [hdup2, hins]⟩
      obtain ⟨e, he⟩ := hadmErr
      simp only [he]
      have horgs : (delete_org_by_id t s.nextId).2.organizations = s.organizations := by
        apply hrestore
        rw [htframe.1, insert_org_orgs]
      refine ⟨⟨e, rfl⟩, ?_, ?_, ?_, ?_, ?_⟩
      · rw [drop_collection_orgs]
        exact horgs
      · rw [drop_collection_admins, delete_org_by_id_admins, htframe.2.1, insert_org_admins]
      · rw [find_org_by_name_congr (u := s) (by rw [drop_collection_orgs]; exact horgs)]
        exact hnone
      · rw [countAdminsByOrg_congr (u := s) (by rw [drop_collection_admins, delete_org_by_id_admins, htframe.2.1, insert_org_admins])]
        unfold countAdminsByOrg
        exact admin_filter_eq_count_zero hfresh.2.2
      · intro hd
        exact drop_collection_kills _ _ hd

/-- Witness for C2: creating `Fresh Co` with an admin email already taken
rolls back to exactly the prior records. -/
theorem create_failure_rollback_witness :
    (∃ e, (create_organization noFaults exampleState "Fresh Co" "a@x.com" "pw9").1
        = .error (.provisioningFailed e))
    ∧ (create_organization noFaults exampleState "Fresh Co" "a@x.com" "pw9").2.organizations
        = exampleState.organizations
    ∧ (create_organization noFaults exampleState "Fresh Co" "a@x.com" "pw9").2.admins
        = exampleState.admins :=
  let h := create_failure_rollback noFaults exampleState "Fresh Co" "a@x.com" "pw9"
    (by unfold IdsFresh; refine ⟨by decide, by decide, by decide⟩) rfl
    (Or.inr (Or.inl rfl))
  ⟨h.1, h.2.1, h.2.2.1⟩

/-- C8: a delete by the owning admin of an existing organization drops the
backing collection, then deletes all its admin records, then deletes the
organization record (the log shows exactly this order), returns that the
record delete affected a row, and a subsequent delete or get for the same
name finds nothing (`NotFound`). -/
theorem delete_by_owner_removes_all (f : Faults) (s : DbState)
    (name : String) (adminId : Nat) (org : Org) (admin : Admin)
    (hfind : find_org_by_name s name = some org)
    (hadmin : find_admin_by_id s adminId = some admin)
    (hown : admin.organization_id = org.id)
    (hcount : countOrgsByName s name = 1)
    (hdrop : f.dropCollectionFails = false) :
    (delete_organization f s name adminId).1 = .ok true
    ∧ collection_exists (delete_organization f s name adminId).2
        org.collection_name = false
    ∧ countAdminsByOrg (delete_organization f s name adminId).2 org.id = 0
    ∧ find_org_by_name (delete_organization f s name adminId).2 name = none
    ∧ get_organization (delete_organization f s name adminId).2 name = none
    ∧ (∀ anyId, (delete_organization f (delete_organization f s name adminId).2
        name anyId).1 = .error .notFound)
    ∧ (delete_organization f s name adminId).2.log
        = s.log ++ [.dropCollection org.collection_name, .deleteAdminsByOrg org.id,
                    .deleteOrg org.id] := by
  have hbe : (admin.organization_id != org.id) = false := by simp [hown]
  unfold delete_organization
  simp only [hfind, hadmin, hbe, Bool.false_eq_true, if_false]
  have horgs2 : (delete_admins_by_organization (drop_collection f s
      org.collection_name).2 org.id).2.organizations = s.organizations := by
    rw [delete_admins_orgs, drop_collection_orgs]
  have hfinal_orgs : (delete_org_by_id (delete_admins_by_organization
      (drop_collection f s org.collection_name).2 org.id).2 org.id).2.organizations
      = s.organizations.filter (fun o => o.id != org.id) := by
    rw [delete_org_by_id_orgs, horgs2]
  have hfind_none : (delete_org_by_id (delete_admins_by_organization
      (drop_collection f s org.collection_name).2 org.id).2 org.id).2.organizations.find?
      (fun o => o.organization_name == name) = none := by
    rw [hfinal_orgs, List.find?_eq_none]
    intro x hx hxn
    have hxmem := List.mem_of_mem_filter hx
    have hxid := List.of_mem_filter (p := fun o : Org => o.id != org.id) hx
    have hxeq : x = org := unique_name_elim hcount hfind hxmem (by simpa using hxn)
    rw [hxeq] at hxid
    simp at hxid
  refine ⟨?_, ?_, ?_, ?_, ?_, ?_, ?_⟩
  · have hmem : org ∈ (delete_admins_by_organization (drop_collection f s
        org.collection_name).2 org.id).2.organizations := by
      rw [horgs2]
      exact List.mem_of_find?_eq_some hfind
    have hpos : 0 < ((delete_admins_by_organization (drop_collection f s
        org.collection_name).2 org.id).2.organizations.filter
        (fun o => o.id == org.id)).length :=
      List.length_pos.mpr (List.ne_nil_of_mem (List.mem_filter.mpr ⟨hmem, by simp⟩))
    have hfst : (delete_org_by_id (delete_admins_by_organization (drop_collection f s
        org.collection_name).2 org.id).2 org.id).1
        = ((delete_admins_by_organization (drop_collection f s
            org.collection_name).2 org.id).2.organizations.filter
            (fun o => o.id == org.id)).length := rfl
    rw [hfst, decide_eq_true hpos]
  · rw [collection_exists_congr (u := (drop_collection f s org.collection_name).2)
      (by rw [delete_org_by_id_collections, delete_admins_collections])]
    exact drop_collection_kills s org.collection_name hdrop
  · unfold countAdminsByOrg
    show ((delete_org_by_id _ _).2.admins.filter _).length = 0
    rw [delete_org_by_id_admins, delete_admins_admins]
    exact admin_filter_count_zero _ org.id
  · unfold find_org_by_name
    exact hfind_none
  · unfold get_organization find_org_by_name
    rw [hfind_none]
    rfl
  · intro anyId
    unfold find_org_by_name
    rw [hfind_none]
  · show (delete_org_by_id _ _).2.log = _
    unfold delete_org_by_id delete_admins_by_organization
    simp only []
    rw [drop_collection_log s org.collection_name hdrop]
    simp [List.append_assoc]

/-- Witness for C8: admin 1 deletes `Acme`. -/
theorem delete_by_owner_removes_all_witness :
    (delete_organization noFaults exampleState "Acme" 1).1 = .ok true
    ∧ find_org_by_name (delete_organization noFaults exampleState "Acme" 1).2
        "Acme" = none :=
  let h := delete_by_owner_removes_all noFaults exampleState "Acme" 1
    ⟨0, "Acme", "org_acme"⟩ ⟨1, "a@x.com", hash_password "pw1", 0⟩
    rfl rfl rfl rfl rfl
  ⟨h.1, h.2.2.2.1⟩

theorem migrate_if_orgs (s1 : DbState) (old new : String) :
    (if collection_exists s1 old = true
     then (migrate_collection_data s1 old new).2 else s1).organizations
      = s1.organizations := by
  split
  · exact (migrate_frame _ _ _).1
  · rfl

/-- C3: the invariant `collection_name = generate_collection_name
organization_name` holds of the record a successful create returns and of
every stored record afterwards, and is preserved across every successful
rename. -/
theorem collection_invariant_preserved (f : Faults) (s : DbState)
    (hs : StateInvariant s) :
    (∀ name email pw r s', create_organization f s name email pw = (.ok r, s') →
        OrgInvariant r.org ∧ StateInvariant s')
    ∧ (∀ oldN newN ae ap r s', update_organization f s oldN newN ae ap = (.ok r, s') →
        StateInvariant s') := by
  constructor
  · intro name email pw r s' h
    unfold create_organization at h
    dsimp only at h
    split at h
    · simp at h
    · split at h
      · simp at h
      · rename_i s2 hs2
        split at h
        · simp at h
        · rename_i a s3 hs3
          simp only [Prod.mk.injEq, Except.ok.injEq] at h
          obtain ⟨h1, h2⟩ := h
          subst h2
          subst h1
          refine ⟨rfl, ?_⟩
          have h3 : s3.organizations = s.organizations
              ++ [⟨s.nextId, name, generate_collection_name name⟩] := by
            rw [(create_admin_frame hs3).1, (create_dynamic_collection_frame hs2).1,
              insert_org_orgs]
          intro x hx
          rw [h3] at hx
          rcases List.mem_append.mp hx with hx | hx
          · exact hs x hx
          · rw [List.mem_singleton] at hx
            rw [hx]
            rfl
  · intro oldN newN ae ap r s' h
    unfold update_organization at h
    split at h
    · simp at h
    · rename_i org horg
      split at h
      · simp at h
      · dsimp only at h
        split at h
        · simp at h
        · rename_i s1 hs1
          split at h
          · simp at h
          · rename_i s3 hs3
            split at h
            · simp at h
            · rename_i b s5 hbp
              simp only [Prod.mk.injEq, Except.ok.injEq] at h
              obtain ⟨h1, h2⟩ := h
              subst h2
              have h5orgs : s5.organizations = s.organizations.map (fun o =>
                  if o.id == org.id then
                    { o with organization_name := newN,
                             collection_name := generate_collection_name newN }
                  else o) := by
                rw [(update_org_credentials_step_frame hbp).1, drop_collection_orgs,
                  (update_org_record_frame hs3).2.2.2, migrate_if_orgs,
                  (create_dynamic_collection_frame hs1).1]
              intro x hx
              rw [h5orgs] at hx
              obtain ⟨o, ho, hxo⟩ := List.mem_map.mp hx
              subst hxo
              by_cases hid : (o.id == org.id) = true
              · rw [if_pos hid]
                rfl
              · rw [if_neg hid]
                exact hs o ho

/-- Witness for C3: the invariant holds after a concrete create and a
concrete rename on the example store. -/
theorem collection_invariant_preserved_witness :
    StateInvariant (create_organization noFaults exampleState
      "New Co" "c@x.com" "pw").2
    ∧ StateInvariant (update_organization noFaults exampleState
      "Acme" "Acme Two" none none).2 :=
  ⟨((collection_invariant_preserved noFaults exampleState
      (by unfold StateInvariant OrgInvariant; decide)).1
      "New Co" "c@x.com" "pw"
      ⟨⟨4, "New Co", "org_new_co"⟩, 5, "c@x.com"⟩
      (create_organization noFaults exampleState "New Co" "c@x.com" "pw").2
      rfl).2,
   (collection_invariant_preserved noFaults exampleState
      (by unfold StateInvariant OrgInvariant; decide)).2
      "Acme" "Acme Two" none none
      (some (⟨0, "Acme Two", "org_acme_two"⟩,
        some ⟨1, "a@x.com", hash_password "pw1", 0⟩))
      (update_organization noFaults exampleState "Acme" "Acme Two" none none).2
      rfl⟩

end TWC
